import Mathlib

/-!
Shallow embedding of `src/scraper.py` (BooksScraper): field extractors,
per-item extraction, the page scraper, the crawl loop, and the validator,
together with proofs of the specified properties.

HTML fetching and parsing are modelled by their results: a fetched page is
either an error (any exception caught by the page-level handler) or a list
of parsed item containers (`Article`), each holding the results of the DOM
queries the per-item code performs.
-/

namespace BooksScraper

/-! ### Character-level helpers (modelled Python builtins) -/

/-- Modelled builtin: the whitespace characters Python's `str.strip()` and
`float()` remove at both ends of a string. -/
def pyIsSpace (c : Char) : Bool :=
  c == ' ' || c == '\t' || c == '\n' || c == '\r' || c == '\x0b' || c == '\x0c'

/-- The currency symbols removed by `re.sub(r'[£$€]', '', ...)` in `clean_price`. -/
def isCurrencySymbol (c : Char) : Bool :=
  c == '£' || c == '$' || c == '€'

/-- `re.sub(r'[£$€]', '', s)`: delete every currency symbol, keep the rest. -/
def removeCurrency (l : List Char) : List Char :=
  l.filter (fun c => !isCurrencySymbol c)

/-- Drop trailing whitespace (the right half of Python `str.strip()`). -/
def dropTrail : List Char → List Char
  | [] => []
  | c :: t =>
    match dropTrail t with
    | [] => if pyIsSpace c then [] else [c]
    | r => c :: r

/-- Modelled builtin `str.strip()`: drop leading and trailing whitespace. -/
def pyStrip (l : List Char) : List Char :=
  dropTrail (l.dropWhile pyIsSpace)

/-- Numeric value of a digit string, most significant digit first. -/
def digitsVal (l : List Char) : Nat :=
  l.foldl (fun acc c => acc * 10 + (c.toNat - 48)) 0

/-- Parse an optional sign, returning the sign factor and the rest. -/
def parseSign : List Char → ℚ × List Char
  | '-' :: rest => (-1, rest)
  | '+' :: rest => (1, rest)
  | l => (1, l)

/-- Parse an unsigned decimal literal: digits with an optional point,
at least one digit overall. -/
def parseUnsigned (l : List Char) : Option ℚ :=
  match l.dropWhile Char.isDigit with
  | [] =>
    if (l.takeWhile Char.isDigit).isEmpty then none
    else some (digitsVal (l.takeWhile Char.isDigit) : ℚ)
  | '.' :: fp =>
    if fp.all Char.isDigit && !((l.takeWhile Char.isDigit).isEmpty && fp.isEmpty) then
      some ((digitsVal (l.takeWhile Char.isDigit) : ℚ) + (digitsVal fp : ℚ) / (10 : ℚ) ^ fp.length)
    else none
  | _ => none

/-- A signed plain decimal literal, or `none` when the text is not one. -/
def parseDecimal (l : List Char) : Option ℚ :=
  match parseUnsigned (parseSign l).2 with
  | some q => some ((parseSign l).1 * q)
  | none => none

/-- Modelled builtin: Python `float(s)` restricted to plain decimal literals
(optional sign, digits, optional fractional point); `float` itself strips
surrounding whitespace before parsing, and raises (here: `none`) otherwise.
Exotic accepted forms (exponents, `inf`, `nan`, digit underscores) are outside
the model; no input in the repository's scope uses them. -/
def pyFloat (l : List Char) : Option ℚ :=
  parseDecimal (pyStrip l)

/-! ### Field extractors (`convert_rating_to_number`, `clean_price`) -/

/-- The ordered rating map of `convert_rating_to_number`, in Python dict
insertion order. -/
def rating_map : List (String × Nat) :=
  [("One", 1), ("Two", 2), ("Three", 3), ("Four", 4), ("Five", 5)]

/-- The `for word, number in rating_map.items()` loop: return the value of the
first entry whose key matches, else 0. The match test is a parameter because
Python's `in` is membership on a list argument and substring containment on a
string argument. -/
def ratingLoop (mtch : String → Bool) : List (String × Nat) → Nat
  | [] => 0
  | (w, n) :: rest => if mtch w then n else ratingLoop mtch rest

/-- `convert_rating_to_number` called with a list of tokens:
`word in rating_class` is list membership. -/
def convert_rating_to_number (rating_class : List String) : Nat :=
  ratingLoop (fun w => rating_class.contains w) rating_map

/-- Whether `sub` occurs as a contiguous sublist of `l`. -/
def listInfixB (sub : List Char) : List Char → Bool
  | [] => sub.isEmpty
  | c :: t => List.isPrefixOf sub (c :: t) || listInfixB sub t

/-- Python `sub in s` on strings: substring containment. -/
def strContains (sub s : String) : Bool :=
  listInfixB sub.toList s.toList

/-- `convert_rating_to_number` called with a single string:
`word in rating_class` is substring containment. -/
def convert_rating_to_number_str (rating_class : String) : Nat :=
  ratingLoop (fun w => strContains w rating_class) rating_map

/-- `clean_price`: strip the text, delete currency symbols, `float` the
remainder, and fall back to 0.0 on parse failure. -/
def clean_price (price_text : String) : ℚ :=
  match pyFloat (removeCurrency (pyStrip price_text.toList)) with
  | some q => q
  | none => 0

/-- The remainder in the specification's words: the price text after stripping
currency symbols and surrounding whitespace. -/
def specRemainder (s : String) : List Char :=
  pyStrip (removeCurrency s.toList)

/-! ### Data model: parsed item containers and item records -/

/-- The `<h3><a>` element of a book card: its `title` attribute (if any), its
visible text (as returned by `get_text(strip=True)`), and its `href` attribute
(if any). `article.find('h3').find('a')` raising (no `h3`, or no `a` inside)
is modelled by the whole field being absent on the `Article`. -/
structure LinkElement where
  titleAttr : Option String
  text : String
  href : Option String
deriving DecidableEq

/-- One `article.product_pod` container, holding the results of the DOM
queries `scrape_page` performs on it: the `h3 > a` link (absent when the
lookup raises), the text of the `p.price_color` element (absent when the
element is missing), the class list of the `p` element matching `star-rating`
(absent when the element is missing), and the stripped text of the
`p.instock.availability` element (absent when the element is missing). -/
structure Article where
  link : Option LinkElement
  priceText : Option String
  ratingClasses : Option (List String)
  availabilityText : Option String
deriving DecidableEq

/-- One record appended to `books_data`: the dict built at the end of the
per-item block. -/
structure Book where
  title : String
  price : ℚ
  rating : Nat
  availability : String
  url : String
deriving DecidableEq

def base_url : String := "https://books.toscrape.com"

/-- Modelled builtin `urllib.parse.urljoin` for the cases the scraper meets:
a missing href (Python returns the base unchanged), an absolute URL (returned
as is), or a relative path (appended to the base, which ends in `/`). -/
def urljoin (b : String) (u : Option String) : String :=
  match u with
  | none => b
  | some h => if List.isPrefixOf "http".toList h.toList then h else b ++ h

/-- The five recognized rating class names, as in the guard
`if cls in ['One', 'Two', 'Three', 'Four', 'Five']`. -/
def five_words : List String := ["One", "Two", "Three", "Four", "Five"]

/-- The `for cls in rating_classes` loop: take the first recognized class,
convert it, and stop; `rating` stays 0 when none is recognized. -/
def ratingFromClasses : List String → Nat
  | [] => 0
  | c :: rest =>
    if five_words.contains c then convert_rating_to_number_str c
    else ratingFromClasses rest

/-- The per-item block of `scrape_page`: `none` when the item's extraction
raises and the item is skipped (the only raising step is the `h3`/`a`
lookup), otherwise the book dict that gets appended. -/
def extract_book (a : Article) : Option Book :=
  match a.link with
  | none => none
  | some link =>
    some
      { title := match link.titleAttr with
          | some t => t
          | none => link.text
        price := match a.priceText with
          | some t => clean_price t
          | none => 0
        rating := ratingFromClasses (match a.ratingClasses with
          | some cs => cs
          | none => [])
        availability := match a.availabilityText with
          | some t => if strContains "In stock" t then "In stock" else "Out of stock"
          | none => "Unknown"
        url := urljoin (base_url ++ "/catalogue/") link.href }

/-! ### Page scraper and crawl loop -/

/-- The result of fetching and parsing one page: `Except.error` when any
exception reaches the page-level handler (network error, non-success status
via `raise_for_status`, parser crash), `Except.ok` with the list of
`product_pod` containers otherwise. -/
abbrev Fetched := Except String (List Article)

/-- `scrape_page`, given the fetch/parse outcome for its URL and the current
`books_data`: on success it appends every successfully extracted book and
returns the container count; on a caught exception it leaves `books_data`
unchanged and returns 0. -/
def scrape_page (fetched : Fetched) (books_data : List Book) : List Book × Nat :=
  match fetched with
  | Except.error _ => (books_data, 0)
  | Except.ok articles => (books_data ++ articles.filterMap extract_book, articles.length)

/-- The item-count signal of page `n` under the page environment `pages`. -/
def pageCount (pages : Nat → Fetched) (n : Nat) : Nat :=
  (scrape_page (pages n) []).2

/-- The records page `n` contributes under the page environment `pages`. -/
def pageBooks (pages : Nat → Fetched) (n : Nat) : List Book :=
  (scrape_page (pages n) []).1

/-- The `for page_num in range(2, 51)` loop of `scrape_all_pages`.
`remaining` counts the loop iterations left (49 at entry, for pages 2..50);
`n` is the current page number; `acc` is `books_data`; `tr` records the pages
fetched so far, in fetch order. Stops early when a page yields zero items. -/
def crawl_loop (pages : Nat → Fetched) : Nat → Nat → List Book → List Nat → List Book × List Nat
  | 0, _, acc, tr => (acc, tr)
  | remaining + 1, n, acc, tr =>
    if (scrape_page (pages n) acc).2 = 0 then ((scrape_page (pages n) acc).1, tr ++ [n])
    else crawl_loop pages remaining (n + 1) (scrape_page (pages n) acc).1 (tr ++ [n])

/-- `scrape_all_pages`: fetch page 1; if it yields zero items stop at once,
otherwise run the loop over pages 2..50. Returns the final `books_data`
together with the list of pages fetched. -/
def scrape_all_pages (pages : Nat → Fetched) : List Book × List Nat :=
  if (scrape_page (pages 1) []).2 = 0 then ((scrape_page (pages 1) []).1, [1])
  else crawl_loop pages 49 2 (scrape_page (pages 1) []).1 [1]

/-! ### Validator -/

/-- `len(self.books_data)`: the total record count `validate_data` reports. -/
def validate_total (books_data : List Book) : Nat :=
  books_data.length

/-- `[book['price'] for book in self.books_data if book['price'] > 0]`. -/
def positivePrices (books_data : List Book) : List ℚ :=
  (books_data.filter (fun b => decide (0 < b.price))).map Book.price

/-- The average price `validate_data` reports: the mean of the positive
prices, or nothing when there are none (`if prices:` guard). -/
def validate_avg (books_data : List Book) : Option ℚ :=
  if (positivePrices books_data).isEmpty then none
  else some ((positivePrices books_data).sum / ((positivePrices books_data).length : ℚ))

/-! ### Lemmas about stripping and filtering characters

The code strips whitespace first and deletes currency symbols second; the
specification words the remainder as the text after deleting currency symbols
and stripping surrounding whitespace. The two agree because whitespace is
never a currency symbol; the lemmas below prove it. -/

theorem pyIsSpace_not_currency {c : Char} (h : pyIsSpace c = true) :
    (!isCurrencySymbol c) = true := by
  simp only [pyIsSpace, Bool.or_eq_true, beq_iff_eq] at h
  rcases h with ((((h | h) | h) | h) | h) | h <;> subst h <;> rfl

theorem dropWhile_filter_dropWhile (l : List Char) :
    ((l.dropWhile pyIsSpace).filter (fun c => !isCurrencySymbol c)).dropWhile pyIsSpace
      = (l.filter (fun c => !isCurrencySymbol c)).dropWhile pyIsSpace := by
  induction l with
  | nil => rfl
  | cons c t ih =>
    cases hc : pyIsSpace c with
    | true =>
      have hpc := pyIsSpace_not_currency hc
      rw [List.dropWhile_cons_of_pos hc, ih]
      simp only [List.filter_cons, hpc, if_true, List.dropWhile_cons_of_pos hc]
    | false =>
      rw [List.dropWhile_cons_of_neg (by simp [hc])]

theorem dropTrail_eq_nil_all_space {t : List Char} (h : dropTrail t = []) :
    ∀ c ∈ t, pyIsSpace c = true := by
  induction t with
  | nil => intro c hc; cases hc
  | cons x xs ih =>
    intro c hc
    cases hdt : dropTrail xs with
    | nil =>
      simp only [dropTrail, hdt] at h
      rcases hc with _ | hc
      · by_contra hx
        simp only [Bool.not_eq_true] at hx
        simp [hx] at h
      · exact ih (by assumption) c (by assumption)
    | cons y ys => simp [dropTrail, hdt] at h

theorem dropTrail_filter_of_nil {t : List Char} (h : dropTrail t = []) :
    dropTrail (t.filter (fun c => !isCurrencySymbol c)) = [] := by
  have hself : t.filter (fun c => !isCurrencySymbol c) = t :=
    List.filter_eq_self.mpr (fun c hc => pyIsSpace_not_currency (dropTrail_eq_nil_all_space h c hc))
  rw [hself, h]

theorem dropTrail_cons_congr {X Y : List Char} (c : Char) (h : dropTrail X = dropTrail Y) :
    dropTrail (c :: X) = dropTrail (c :: Y) := by
  simp only [dropTrail]
  rw [h]

theorem dropTrail_filter_dropTrail (l : List Char) :
    dropTrail ((dropTrail l).filter (fun c => !isCurrencySymbol c))
      = dropTrail (l.filter (fun c => !isCurrencySymbol c)) := by
  induction l with
  | nil => rfl
  | cons c t ih =>
    cases hdt : dropTrail t with
    | nil =>
      have hnil := dropTrail_filter_of_nil hdt
      cases hc : pyIsSpace c with
      | true =>
        have hpc : (!isCurrencySymbol c) = true := pyIsSpace_not_currency hc
        simp [dropTrail, hdt, hc, List.filter_cons, hpc, hnil]
      | false =>
        cases hp : (!isCurrencySymbol c) with
        | true =>
          simp [dropTrail, hdt, hc, List.filter_cons, hp, hnil]
        | false =>
          simp [dropTrail, hdt, hc, List.filter_cons, hp, hnil]
    | cons x xs =>
      have hcons : dropTrail (c :: t) = c :: dropTrail t := by
        simp only [dropTrail, hdt]
      rw [hcons]
      cases hp : (!isCurrencySymbol c) with
      | true =>
        simp only [List.filter_cons, hp, if_true]
        exact dropTrail_cons_congr c ih
      | false =>
        simp only [List.filter_cons, hp, if_false]
        exact ih

theorem dropWhile_dropTrail_comm (l : List Char) :
    (dropTrail l).dropWhile pyIsSpace = dropTrail (l.dropWhile pyIsSpace) := by
  induction l with
  | nil => rfl
  | cons c t ih =>
    cases hc : pyIsSpace c with
    | true =>
      cases hdt : dropTrail t with
      | nil =>
        have hdw : List.dropWhile pyIsSpace (dropTrail t) = [] := by rw [hdt]; rfl
        have hdt2 : dropTrail (List.dropWhile pyIsSpace t) = [] := by rw [← ih]; exact hdw
        simp [dropTrail, hdt, hc, List.dropWhile_cons, hdt2]
      | cons x xs =>
        have h1 : dropTrail (c :: t) = c :: dropTrail t := by simp only [dropTrail, hdt]
        rw [h1, List.dropWhile_cons_of_pos hc, List.dropWhile_cons_of_pos hc, ← ih, hdt]
    | false =>
      cases hdt : dropTrail t with
      | nil =>
        simp [dropTrail, hdt, hc, List.dropWhile_cons]
      | cons x xs =>
        have h1 : dropTrail (c :: t) = c :: dropTrail t := by simp only [dropTrail, hdt]
        rw [h1, List.dropWhile_cons_of_neg (by simp [hc]), List.dropWhile_cons_of_neg (by simp [hc])]
        simp only [dropTrail, hdt]

theorem pyStrip_filter_pyStrip (l : List Char) :
    pyStrip ((pyStrip l).filter (fun c => !isCurrencySymbol c))
      = pyStrip (l.filter (fun c => !isCurrencySymbol c)) := by
  unfold pyStrip
  rw [← dropWhile_dropTrail_comm l, dropWhile_filter_dropWhile (dropTrail l),
    ← dropWhile_dropTrail_comm (List.filter (fun c => !isCurrencySymbol c) (dropTrail l)),
    dropTrail_filter_dropTrail l, dropWhile_dropTrail_comm]

theorem clean_price_eq (s : String) :
    clean_price s = (parseDecimal (specRemainder s)).getD 0 := by
  unfold clean_price pyFloat removeCurrency specRemainder
  rw [pyStrip_filter_pyStrip]
  unfold removeCurrency
  cases parseDecimal (pyStrip (s.toList.filter (fun c => !isCurrencySymbol c))) <;> rfl

/-! ### Lemmas about the rating loop -/

theorem ratingLoop_le_five (f : String → Bool) : ratingLoop f rating_map ≤ 5 := by
  simp only [rating_map, ratingLoop]
  split_ifs <;> norm_num

theorem ratingLoop_eq_find (f : String → Bool) :
    ∀ m : List (String × Nat),
      ratingLoop f m = ((m.find? (fun p => f p.1)).map Prod.snd).getD 0 := by
  intro m
  induction m with
  | nil => rfl
  | cons hd rest ih =>
    rcases hd with ⟨w, n⟩
    rw [ratingLoop, List.find?_cons]
    cases hf : f w <;> simp [hf, ih]

theorem ratingFromClasses_le_five (cs : List String) : ratingFromClasses cs ≤ 5 := by
  induction cs with
  | nil => exact Nat.zero_le 5
  | cons c rest ih =>
    rw [ratingFromClasses]
    split_ifs
    · exact ratingLoop_le_five _
    · exact ih

/-! ### Lemmas about the page scraper and the crawl loop -/

theorem scrape_page_split (pages : Nat → Fetched) (n : Nat) (acc : List Book) :
    scrape_page (pages n) acc = (acc ++ pageBooks pages n, pageCount pages n) := by
  cases h : pages n <;> simp [scrape_page, pageBooks, pageCount, h]

theorem pageBooks_nil_of_count_zero (pages : Nat → Fetched) (n : Nat)
    (h : pageCount pages n = 0) : pageBooks pages n = [] := by
  cases hp : pages n with
  | error e => simp [pageBooks, scrape_page, hp]
  | ok arts =>
    have h2 : arts.length = 0 := by simpa [pageCount, scrape_page, hp] using h
    simp [pageBooks, scrape_page, hp, List.length_eq_zero.mp h2]

theorem crawl_loop_stops_at_empty (pages : Nat → Fetched) (k : Nat) (hk : k ≤ 50)
    (h0 : pageCount pages k = 0) :
    ∀ r n acc tr, n + r = 51 → n ≤ k →
      (∀ j, n ≤ j → j < k → pageCount pages j ≠ 0) →
      crawl_loop pages r n acc tr
        = (acc ++ (List.range' n (k - n)).flatMap (pageBooks pages),
           tr ++ List.range' n (k - n + 1)) := by
  intro r
  induction r with
  | zero =>
    intro n acc tr h51 hnk hprev
    omega
  | succ r ih =>
    intro n acc tr h51 hnk hprev
    rcases Nat.eq_or_lt_of_le hnk with heq | hlt
    · subst heq
      have hb := pageBooks_nil_of_count_zero pages n h0
      rw [crawl_loop, scrape_page_split pages n acc]
      simp [h0, hb, Nat.sub_self, List.range'_succ]
    · have hne : pageCount pages n ≠ 0 := hprev n (Nat.le_refl n) hlt
      rw [crawl_loop, scrape_page_split pages n acc]
      simp only [hne, if_false]
      rw [ih (n + 1) (acc ++ pageBooks pages n) (tr ++ [n]) (by omega) (by omega)
        (fun j hj1 hj2 => hprev j (by omega) hj2)]
      have hkn : k - n = (k - (n + 1)) + 1 := by omega
      rw [hkn]
      simp [List.range'_succ, List.append_assoc]

/-! ### Claim theorems -/

/-- C1: for every page index k with 1 ≤ k ≤ 50, if page k yields zero items
(and it is the first such page), the crawl fetches exactly pages 1..k — in
particular neither page k+1 nor any later page — and the final collection is
exactly the concatenation of the items of pages 1..k-1, in page order. -/
theorem scrape_all_pages_empty_page_stops (pages : Nat → Fetched) (k : Nat)
    (hk1 : 1 ≤ k) (hk50 : k ≤ 50) (h0 : pageCount pages k = 0)
    (hprev : ∀ j, 1 ≤ j → j < k → pageCount pages j ≠ 0) :
    (scrape_all_pages pages).1 = (List.range' 1 (k - 1)).flatMap (pageBooks pages) ∧
    (scrape_all_pages pages).2 = List.range' 1 k ∧
    ∀ m ∈ (scrape_all_pages pages).2, m ≤ k := by
  rcases Nat.eq_or_lt_of_le hk1 with heq | h1k
  · -- the first page is already empty
    have hk : k = 1 := heq.symm
    subst hk
    have hb := pageBooks_nil_of_count_zero pages 1 h0
    refine ⟨?_, ?_, ?_⟩ <;>
      simp [scrape_all_pages, scrape_page_split pages 1 [], h0, hb, List.range'_succ]
  · -- pages 1..k-1 are nonempty, the loop runs from page 2
    have hc1 : pageCount pages 1 ≠ 0 := hprev 1 (Nat.le_refl 1) h1k
    have hc1a : ¬ (scrape_page (pages 1) []).2 = 0 := hc1
    rw [scrape_all_pages]
    simp only [hc1a, if_false]
    rw [show (scrape_page (pages 1) []).1 = pageBooks pages 1 from rfl]
    rw [crawl_loop_stops_at_empty pages k hk50 h0 49 2 (pageBooks pages 1) [1] rfl h1k
      (fun j hj1 hj2 => hprev j (by omega) hj2)]
    have hk2 : k - 1 = (k - 2) + 1 := by omega
    have hk3 : k = ((k - 2) + 1) + 1 := by omega
    refine ⟨?_, ?_, ?_⟩
    · rw [hk2]
      simp [List.range'_succ]
    · conv_rhs => rw [hk3]
      have : k - 2 + 1 = k - 1 := by omega
      simp [List.range'_succ, this]
    · intro m hm
      have h2 : k - 2 + 1 = k - 1 := by omega
      simp only [List.mem_append, List.mem_singleton, h2, List.mem_range'_1] at hm
      rcases hm with hm | hm <;> omega

/-- C2: a page whose fetch or parse raises is caught by the page-level
handler: `scrape_page` leaves the collection unchanged and returns 0, the
very result a genuinely empty page produces; the function is total, so no
exception propagates to the crawl loop. -/
theorem scrape_page_error_returns_zero (e : String) (acc : List Book) :
    scrape_page (Except.error e) acc = (acc, 0) ∧
    scrape_page (Except.error e) acc = scrape_page (Except.ok []) acc := by
  constructor <;> simp [scrape_page]

/-- C3: on a successfully fetched page, `scrape_page` returns the number of
item containers found, while the records appended are the successfully
extracted ones — at most, and possibly strictly fewer than, the returned
count. -/
theorem scrape_page_returns_container_count (articles : List Article) (acc : List Book) :
    (scrape_page (Except.ok articles) acc).2 = articles.length ∧
    (scrape_page (Except.ok articles) acc).1 = acc ++ articles.filterMap extract_book ∧
    (articles.filterMap extract_book).length ≤ (scrape_page (Except.ok articles) acc).2 ∧
    ∃ bad : List Article,
      ((scrape_page (Except.ok bad) []).1).length < (scrape_page (Except.ok bad) []).2 := by
  refine ⟨rfl, rfl, ?_, ?_⟩
  · simpa [scrape_page] using List.length_filterMap_le extract_book articles
  · refine ⟨[⟨none, none, none, none⟩], ?_⟩
    simp [scrape_page, extract_book]

/-- C4 (amended): on an input containing more than one recognized rating
label, `convert_rating_to_number` does not return 0; it returns the numeric
value of the first entry of the ordered map {One, Two, Three, Four, Five}
that matches, exactly as in the single-match case. -/
theorem convert_rating_multi_match_first (toks : List String)
    (h : 2 ≤ (rating_map.filter (fun p => toks.contains p.1)).length) :
    convert_rating_to_number toks
      = ((rating_map.find? (fun p => toks.contains p.1)).map Prod.snd).getD 0 ∧
    convert_rating_to_number toks ≠ 0 := by
  refine ⟨ratingLoop_eq_find _ rating_map, ?_⟩
  by_cases h1 : "One" ∈ toks <;> by_cases h2 : "Two" ∈ toks <;>
    by_cases h3 : "Three" ∈ toks <;> by_cases h4 : "Four" ∈ toks <;>
    by_cases h5 : "Five" ∈ toks <;>
    simp [rating_map, convert_rating_to_number, ratingLoop, List.filter,
      h1, h2, h3, h4, h5] at h ⊢

/-- C4 counterexample: the input ["Two", "One"] contains two recognized
rating labels, yet the conversion returns 1 (the first map entry's value),
not 0 as the claim states. -/
theorem convert_rating_multi_match_counterexample :
    (["Two", "One"] : List String).contains "One" = true ∧
    (["Two", "One"] : List String).contains "Two" = true ∧
    convert_rating_to_number ["Two", "One"] = 1 ∧
    ¬ convert_rating_to_number ["Two", "One"] = 0 := by
  refine ⟨rfl, rfl, rfl, by decide⟩

/-- C4 witness: the amended statement instantiated at ["Two", "One"]. -/
theorem convert_rating_multi_match_first_witness :
    2 ≤ (rating_map.filter (fun p => (["Two", "One"] : List String).contains p.1)).length ∧
    convert_rating_to_number ["Two", "One"] ≠ 0 :=
  ⟨by decide, (convert_rating_multi_match_first ["Two", "One"] (by decide)).2⟩

/-- C5: for every list of rating label tokens, `convert_rating_to_number`
returns the numeric value of the first entry of the ordered map
{One:1, Two:2, Three:3, Four:4, Five:5} whose key is among the tokens, and 0
when none is; the result is always at most 5 (and a natural number, hence in
0–5). -/
theorem convert_rating_first_match_value (toks : List String) :
    convert_rating_to_number toks
      = ((rating_map.find? (fun p => toks.contains p.1)).map Prod.snd).getD 0 ∧
    convert_rating_to_number toks ≤ 5 :=
  ⟨ratingLoop_eq_find _ rating_map, ratingLoop_le_five _⟩

/-- C6: when the price text, after deleting the currency symbols £, $, € and
stripping surrounding whitespace, is a valid plain decimal literal,
`clean_price` returns that value; when the remainder is not numeric it
returns 0.0, and being a total function it raises no error. -/
theorem clean_price_strip_parse (s : String) :
    (∀ q, parseDecimal (specRemainder s) = some q → clean_price s = q) ∧
    (parseDecimal (specRemainder s) = none → clean_price s = 0) := by
  have h := clean_price_eq s
  constructor
  · intro q hq
    rw [h, hq]
    rfl
  · intro hq
    rw [h, hq]
    rfl

/-- C6 witness: the theorem instantiated at the catalog-shaped price text
£51.77, whose remainder parses to 51.77. -/
theorem clean_price_strip_parse_witness :
    parseDecimal (specRemainder "£51.77") = some (5177 / 100) ∧
    clean_price "£51.77" = 5177 / 100 := by
  have hval : (1 : ℚ) * (((51 : ℕ) : ℚ) + ((77 : ℕ) : ℚ) / (10 : ℚ) ^ (2 : ℕ)) = 5177 / 100 := by
    norm_num
  have hp : parseDecimal (specRemainder "£51.77")
      = some ((1 : ℚ) * (((51 : ℕ) : ℚ) + ((77 : ℕ) : ℚ) / (10 : ℚ) ^ (2 : ℕ))) := rfl
  have hps : parseDecimal (specRemainder "£51.77") = some (5177 / 100) := by rw [hp, hval]
  exact ⟨hps, (clean_price_strip_parse "£51.77").1 _ hps⟩

/-- C7: the availability of every extracted record is three-way: text present
and containing "In stock" gives "In stock"; text present without "In stock"
gives "Out of stock"; absent availability markup gives "Unknown". -/
theorem extract_book_availability_three_way (a : Article) (b : Book)
    (h : extract_book a = some b) :
    (∀ t, a.availabilityText = some t → strContains "In stock" t = true →
      b.availability = "In stock") ∧
    (∀ t, a.availabilityText = some t → strContains "In stock" t = false →
      b.availability = "Out of stock") ∧
    (a.availabilityText = none → b.availability = "Unknown") := by
  cases hl : a.link with
  | none => rw [extract_book, hl] at h; cases h
  | some link =>
    rw [extract_book, hl] at h
    injection h with h
    subst h
    refine ⟨?_, ?_, ?_⟩
    · intro t ht hc
      simp [ht, hc]
    · intro t ht hc
      simp [ht, hc]
    · intro ht
      simp [ht]

/-- Concrete article whose availability text contains "In stock". -/
def wArtIn : Article :=
  { link := some { titleAttr := some "T", text := "T", href := none },
    priceText := none, ratingClasses := none,
    availabilityText := some "In stock (22 available)" }

/-- The record extracted from `wArtIn`. -/
def wBookIn : Book :=
  { title := "T", price := 0, rating := 0, availability := "In stock",
    url := base_url ++ "/catalogue/" }

/-- Concrete article whose availability text lacks "In stock". -/
def wArtOut : Article :=
  { link := some { titleAttr := some "T", text := "T", href := none },
    priceText := none, ratingClasses := none, availabilityText := some "Sold out" }

/-- The record extracted from `wArtOut`. -/
def wBookOut : Book :=
  { title := "T", price := 0, rating := 0, availability := "Out of stock",
    url := base_url ++ "/catalogue/" }

/-- Concrete article with no availability markup. -/
def wArtNone : Article :=
  { link := some { titleAttr := some "T", text := "T", href := none },
    priceText := none, ratingClasses := none, availabilityText := none }

/-- The record extracted from `wArtNone`. -/
def wBookNone : Book :=
  { title := "T", price := 0, rating := 0, availability := "Unknown",
    url := base_url ++ "/catalogue/" }

/-- C7 witness: the three availability cases instantiated at concrete
articles. -/
theorem extract_book_availability_three_way_witness :
    extract_book wArtIn = some wBookIn ∧ wBookIn.availability = "In stock" ∧
    extract_book wArtOut = some wBookOut ∧ wBookOut.availability = "Out of stock" ∧
    extract_book wArtNone = some wBookNone ∧ wBookNone.availability = "Unknown" :=
  ⟨rfl, (extract_book_availability_three_way wArtIn wBookIn rfl).1 _ rfl rfl,
   rfl, (extract_book_availability_three_way wArtOut wBookOut rfl).2.1 _ rfl rfl,
   rfl, (extract_book_availability_three_way wArtNone wBookNone rfl).2.2 rfl⟩

/-- C8 (amended): every record appended by `scrape_page` has a rating in 0–5
and an availability among {"In stock", "Out of stock", "Unknown"}; its price
equals `clean_price` of the item's price text (0.0 when the price element is
missing) and is non-negative except when the cleaned price text parses as a
negative decimal literal. -/
theorem extract_book_record_invariant (a : Article) (b : Book)
    (h : extract_book a = some b) :
    b.rating ≤ 5 ∧
    (b.availability = "In stock" ∨ b.availability = "Out of stock" ∨
      b.availability = "Unknown") ∧
    b.price = (match a.priceText with | some t => clean_price t | none => 0) ∧
    (0 ≤ b.price ∨
      ∃ t q, a.priceText = some t ∧ parseDecimal (specRemainder t) = some q ∧ q < 0) := by
  cases hl : a.link with
  | none => rw [extract_book, hl] at h; cases h
  | some link =>
    rw [extract_book, hl] at h
    injection h with h
    subst h
    refine ⟨ratingFromClasses_le_five _, ?_, rfl, ?_⟩
    · cases ha : a.availabilityText with
      | none => simp [ha]
      | some t =>
        cases hc : strContains "In stock" t with
        | true => simp [ha, hc]
        | false => simp [ha, hc]
    · cases hp : a.priceText with
      | none => left; simp [hp]
      | some t =>
        simp only [hp]
        rw [clean_price_eq t]
        cases hq : parseDecimal (specRemainder t) with
        | none => left; simp
        | some q =>
          rcases le_or_lt 0 q with hq0 | hq0
          · left; simpa using hq0
          · right; exact ⟨t, q, rfl, hq, hq0⟩

/-- C8 counterexample: a price text of £-5 produces an appended record whose
price is negative, violating the non-negativity part of the claimed
invariant. -/
theorem extract_book_negative_price_counterexample :
    ∃ b, extract_book
        { link := some { titleAttr := some "X", text := "X", href := none },
          priceText := some "£-5", ratingClasses := none, availabilityText := none }
      = some b ∧ b.price < 0 := by
  refine ⟨_, rfl, ?_⟩
  show (-1 : ℚ) * ((5 : ℕ) : ℚ) < 0
  norm_num

/-- Concrete article with a well-formed positive price. -/
def wArtPos : Article :=
  { link := some { titleAttr := some "P", text := "P", href := none },
    priceText := some "£2", ratingClasses := some ["star-rating", "Five"],
    availabilityText := some "In stock" }

/-- The record extracted from `wArtPos`. -/
def wBookPos : Book :=
  { title := "P", price := clean_price "£2", rating := 5, availability := "In stock",
    url := base_url ++ "/catalogue/" }

/-- C8 witness: the amended invariant instantiated at a concrete article. -/
theorem extract_book_record_invariant_witness :
    extract_book wArtPos = some wBookPos ∧
    (wBookPos.rating ≤ 5 ∧
      (wBookPos.availability = "In stock" ∨ wBookPos.availability = "Out of stock" ∨
        wBookPos.availability = "Unknown") ∧
      wBookPos.price = (match wArtPos.priceText with | some t => clean_price t | none => 0) ∧
      (0 ≤ wBookPos.price ∨
        ∃ t q, wArtPos.priceText = some t ∧ parseDecimal (specRemainder t) = some q ∧ q < 0)) :=
  ⟨rfl, extract_book_record_invariant wArtPos wBookPos rfl⟩

/-- C9: the validator's average price is the arithmetic mean of the prices of
exactly the records with price > 0: appending records with price ≤ 0 leaves
the average unchanged while increasing the reported total by their number,
and whenever an average q is reported, q times the number of positive-price
records equals the sum of their prices. -/
theorem validate_avg_positive_mean (books zpb : List Book)
    (hz : ∀ b ∈ zpb, b.price ≤ 0) :
    validate_total (books ++ zpb) = validate_total books + zpb.length ∧
    validate_avg (books ++ zpb) = validate_avg books ∧
    (∀ q, validate_avg books = some q →
      positivePrices books ≠ [] ∧
      q * ((positivePrices books).length : ℚ) = (positivePrices books).sum) := by
  have hzf : zpb.filter (fun b => decide (0 < b.price)) = [] := by
    rw [List.filter_eq_nil_iff]
    intro b hb
    simpa using not_lt.mpr (hz b hb)
  have hpp : positivePrices (books ++ zpb) = positivePrices books := by
    rw [positivePrices, List.filter_append, hzf, List.append_nil]
    rfl
  refine ⟨?_, ?_, ?_⟩
  · simp [validate_total]
  · rw [validate_avg, validate_avg, hpp]
  · intro q hq
    rw [validate_avg] at hq
    by_cases he : (positivePrices books).isEmpty
    · simp [he] at hq
    · have hne : positivePrices books ≠ [] := by
        simpa [List.isEmpty_iff] using he
      have hlen : ((positivePrices books).length : ℚ) ≠ 0 := by
        have : 0 < (positivePrices books).length := List.length_pos.mpr hne
        exact_mod_cast Nat.pos_iff_ne_zero.mp this
      rw [if_neg he] at hq
      injection hq with hq
      refine ⟨hne, ?_⟩
      rw [← hq, div_mul_cancel₀ _ hlen]

/-- Record with a positive price, for the C9 witness. -/
def wBookA : Book :=
  { title := "A", price := 10, rating := 3, availability := "In stock", url := "a" }

/-- Record with price 0, for the C9 witness. -/
def wBookZ : Book :=
  { title := "B", price := 0, rating := 0, availability := "Unknown", url := "b" }

/-- C9 witness: appending a zero-price record leaves the average unchanged
and raises the total by one. -/
theorem validate_avg_positive_mean_witness :
    (∀ b ∈ [wBookZ], b.price ≤ 0) ∧
    validate_total ([wBookA] ++ [wBookZ]) = validate_total [wBookA] + 1 ∧
    validate_avg ([wBookA] ++ [wBookZ]) = validate_avg [wBookA] := by
  have hz : ∀ b ∈ [wBookZ], b.price ≤ 0 := by
    intro b hb
    rw [List.mem_singleton] at hb
    subst hb
    norm_num [wBookZ]
  exact ⟨hz, (validate_avg_positive_mean [wBookA] [wBookZ] hz).1,
    (validate_avg_positive_mean [wBookA] [wBookZ] hz).2.1⟩

/-- C10: given the single string "Onerous" — not equal to any of the five
rating words but containing "One" as a substring — the string version of the
rating conversion returns 1, demonstrating substring matching rather than
equality. -/
theorem convert_rating_substring_containment :
    convert_rating_to_number_str "Onerous" = 1 ∧
    strContains "One" "Onerous" = true ∧
    ("Onerous" : String) ≠ "One" ∧ ("Onerous" : String) ≠ "Two" ∧
    ("Onerous" : String) ≠ "Three" ∧ ("Onerous" : String) ≠ "Four" ∧
    ("Onerous" : String) ≠ "Five" := by
  refine ⟨rfl, rfl, ?_, ?_, ?_, ?_, ?_⟩ <;> decide

/-- One-book article for the C1 witness pages. -/
def wArtPage : Article :=
  { link := some { titleAttr := some "T", text := "T", href := none },
    priceText := none, ratingClasses := some ["star-rating", "Three"],
    availabilityText := some "In stock" }

/-- C1 witness page environment: pages 1 and 2 hold one book each, page 3 and
later are empty. -/
def wPages : Nat → Fetched := fun n =>
  if n ≤ 2 then Except.ok [wArtPage] else Except.ok []

/-- C1 witness: with pages 1 and 2 nonempty and page 3 empty, the crawl
fetches exactly pages 1, 2, 3 and collects the items of pages 1 and 2. -/
theorem scrape_all_pages_empty_page_stops_witness :
    pageCount wPages 3 = 0 ∧
    (scrape_all_pages wPages).2 = List.range' 1 3 ∧
    (scrape_all_pages wPages).1 = (List.range' 1 2).flatMap (pageBooks wPages) := by
  have h := scrape_all_pages_empty_page_stops wPages 3 (by norm_num) (by norm_num) rfl
    (by
      intro j h1 h2
      interval_cases j <;> decide)
  exact ⟨rfl, h.2.1, h.1⟩

end BooksScraper
